import Mathlib

/-!
Verification development for the coding-agent repository: a shallow
embedding of its tool-invocation subsystem (safety gate, call extractor,
dispatcher, capability providers, context store and orchestration loop),
with theorems settling the specification's claims about it.

The embedding translates the TypeScript sources:
  - `src/agent.ts`      (CodingAgent: parseAndExecuteTools, processMessage, ...)
  - `src/tools/commandTools.ts` (CommandTools: executeCommand, isSafeCommand)
  - `src/tools/fileTools.ts`    (FileTools: readFile/writeFile/editFile/listFiles)
  - `src/cli.ts`        (CLI.start loop)
External effects (filesystem, child processes, the OpenAI model, the Gmail
service) are modelled as explicit oracle parameters; machine behaviour of
JavaScript strings and numbers is modelled on Lean `String`/`Int`/`Nat`.
-/

/-! ## Data model (`src/types.ts`) -/

/-- Message role (`AgentMessage.role` in `src/types.ts`). -/
inductive Role where
  | user
  | assistant
  | system
deriving DecidableEq

/-- `AgentMessage` from `src/types.ts`; the JS `Date` timestamp is modelled
as a `Nat` (milliseconds since epoch). -/
structure AgentMessage where
  role : Role
  content : String
  timestamp : Nat
deriving DecidableEq

/-- `CommandExecution` from `src/types.ts`.  `exitCode` is an `Int` since
Node exit codes fit a signed integer. -/
structure CommandExecution where
  command : String
  output : String
  error : Option String
  exitCode : Int
deriving DecidableEq

/-- One entry of the array built by `FileTools.listFiles`
(`{ name, isDirectory, size, modified }`); the `Date` is a `Nat`. -/
structure FileEntry where
  name : String
  isDirectory : Bool
  size : Nat
  modified : Nat
deriving DecidableEq

/-- The dynamically-typed `data` payload of a `ToolResult`.  The core
produces strings (file contents), path/size records (file writes), file
listings and command executions; anything coming from the opaque Gmail
service is `external` (tagged by a number so distinct payloads stay
distinct). -/
inductive Payload where
  | str : String → Payload
  | pathSize : String → Nat → Payload
  | fileList : List FileEntry → Payload
  | cmdExec : CommandExecution → Payload
  | external : Nat → Payload
deriving DecidableEq

/-- `ToolResult` from `src/types.ts`: `success: boolean`,
`data?: any`, `error?: string`, `message: string`.  `message` being a
required (non-optional) field of the interface is mirrored by `message`
being a total `String` field here. -/
structure ToolResult where
  success : Bool
  data : Option Payload
  error : Option String
  message : String
deriving DecidableEq

/-- The Result invariant claimed by the spec: whenever the `error` field is
set, `success` is `false`.  (Presence of `message` is enforced by the
type itself.) -/
def resultInv (r : ToolResult) : Prop :=
  r.error.isSome = true → r.success = false

instance (r : ToolResult) : Decidable (resultInv r) := by
  unfold resultInv; infer_instance

/-! ## JavaScript string primitives

Character-level models of the JS operations the sources use:
`\w` and `\s` character classes, `String.prototype.trim`,
`String.prototype.toLowerCase` (ASCII range; the deny list and the
tool-call syntax are ASCII), `String.prototype.includes`,
`String.prototype.replace(/['"]/g,'')`, and `parseInt`. -/

/-- JS regex `\w` class: `[A-Za-z0-9_]`. -/
def isWordChar (c : Char) : Bool :=
  (('A' ≤ c && c ≤ 'Z') || ('a' ≤ c && c ≤ 'z') || ('0' ≤ c && c ≤ '9') || c = '_')

/-- JS regex `\s` class / `trim` whitespace, restricted to the ASCII
whitespace characters (space, tab, LF, VT, FF, CR). -/
def jsSpace (c : Char) : Bool :=
  (c = ' ' || c = '\t' || c = '\n' || c = '\x0b' || c = '\x0c' || c = '\r')

/-- ASCII lowercasing of one character (`String.prototype.toLowerCase`,
restricted to the ASCII letters that the deny list and commands use). -/
def asciiLower (c : Char) : Char :=
  if 'A' ≤ c && c ≤ 'Z' then Char.ofNat (c.toNat + 32) else c

/-- ASCII `toLowerCase` on a string. -/
def asciiLowerStr (s : String) : String :=
  String.mk (s.toList.map asciiLower)

/-- `String.prototype.trim`. -/
def trimJS (s : String) : String :=
  String.mk (((s.toList.dropWhile jsSpace).reverse.dropWhile jsSpace).reverse)

/-- `arg.replace(/['"]/g, '')`: remove every single- and double-quote
character, wherever it occurs. -/
def stripQuotesAll (s : String) : String :=
  String.mk (s.toList.filter (fun c => !(c = '\'' || c = '"')))

/-- `haystack.includes(needle)` on character lists: some contiguous
occurrence of `needle` inside `hay`. -/
def containsSub (hay needle : List Char) : Bool :=
  match hay with
  | [] => needle.isEmpty
  | _ :: t => needle.isPrefixOf hay || containsSub t needle

/-- Decimal digit value. -/
def decVal (c : Char) : Option Nat :=
  if '0' ≤ c && c ≤ '9' then some (c.toNat - 48) else none

/-- Hexadecimal digit value. -/
def hexVal (c : Char) : Option Nat :=
  if '0' ≤ c && c ≤ '9' then some (c.toNat - 48)
  else if 'a' ≤ c && c ≤ 'f' then some (c.toNat - 87)
  else if 'A' ≤ c && c ≤ 'F' then some (c.toNat - 55)
  else none

/-- Digit value in the radix `parseInt` selected (10 or 16). -/
def digitVal (radix : Nat) (c : Char) : Option Nat :=
  if radix = 16 then hexVal c else decVal c

/-- JS `parseInt(s)` with no explicit radix: skip leading whitespace, read
an optional sign, detect a `0x`/`0X` hex prefix, then take the longest
run of digits; `none` models `NaN` (no digits at all).  JS returns a
float and loses precision above 2^53; the inputs here are small. -/
def parseIntStr (s : String) : Option Int :=
  let cs := s.toList.dropWhile jsSpace
  let signAndRest : Int × List Char :=
    match cs with
    | '-' :: t => (-1, t)
    | '+' :: t => (1, t)
    | _ => (1, cs)
  let radixAndRest : Nat × List Char :=
    match signAndRest.2 with
    | '0' :: 'x' :: t => (16, t)
    | '0' :: 'X' :: t => (16, t)
    | _ => (10, signAndRest.2)
  let ds := radixAndRest.2.takeWhile (fun c => (digitVal radixAndRest.1 c).isSome)
  if ds.isEmpty then none
  else some (signAndRest.1 *
    (ds.foldl (fun acc c => acc * (radixAndRest.1 : Int) + ((digitVal radixAndRest.1 c).getD 0 : Int)) 0))

/-- `parseInt` applied to a possibly-`undefined` argument
(`parseInt(undefined)` is `NaN`). -/
def parseIntOpt : Option String → Option Int
  | none => none
  | some s => parseIntStr s

/-- JS `x || 10` on the result of `parseInt`: `NaN` and `0` are falsy and
yield the default `10`. -/
def jsOrTen : Option Int → Int
  | none => 10
  | some n => if n = 0 then 10 else n

/-- JS `s || d` on strings: the empty string is falsy. -/
def jsOrStr (s d : String) : String :=
  if s = "" then d else s

/-! ## Safety gate (`CommandTools.isSafeCommand`, `src/tools/commandTools.ts`) -/

/-- The fixed deny list `dangerousCommands`. -/
def dangerousCommands : List String :=
  ["rm -rf", "format", "dd", "mkfs", "fdisk", "shutdown", "reboot", "halt", "poweroff"]

/-- `isSafeCommand(command)`: `true` iff the lower-cased command contains
none of the deny-listed substrings (each itself lower-cased, as in the
source). -/
def isSafeCommand (command : String) : Bool :=
  let lowerCommand := asciiLowerStr command
  !(dangerousCommands.any (fun dangerous =>
      containsSub lowerCommand.toList (asciiLowerStr dangerous).toList))

/-! ## Call extractor (`parseAndExecuteTools` in `src/agent.ts`, lines 113-123)

The first regex,
`/\b(readFile|writeFile|...|analyzeEmailThread)\s*\([^)]+\)/g`,
is modelled by a left-to-right scanner: at each position with a word
boundary it tries the alternatives in regex order; an alternative matches
when its literal name is a prefix, followed by a greedy run of `\s`, a
`'('`, a greedy non-empty run of non-`')'` characters and a `')'`.
Matches do not overlap: scanning resumes after each match, as `lastIndex`
does for a global regex. -/

/-- The alternation of tool names, in the order they appear in the regex. -/
def toolNames : List String :=
  ["readFile", "writeFile", "editFile", "executeCommand", "listFiles",
   "listEmails", "getEmail", "sendEmail", "createDraft", "searchEmails",
   "getUnreadEmails", "markAsRead", "deleteEmail", "getEmailContext",
   "analyzeEmailThread"]

/-- One match of the first regex: the tool name, the whitespace matched by
`\s*`, and the characters matched by `[^)]+`. -/
structure RawMatch where
  name : String
  ws : List Char
  args : String
deriving DecidableEq

/-- The full text the match covered. -/
def RawMatch.rawString (m : RawMatch) : String :=
  m.name ++ String.mk m.ws ++ "(" ++ m.args ++ ")"

/-- Strip a literal prefix off a character list, returning the remainder. -/
def stripPrefixChars : List Char → List Char → Option (List Char)
  | [], cs => some cs
  | _ :: _, [] => none
  | p :: ps, c :: cs => if p = c then stripPrefixChars ps cs else none

/-- Try one alternative of the regex at the current position: the name,
then `\s*\([^)]+\)`.  Returns the match and the total number of
characters consumed. -/
def tryName (name : String) (cs : List Char) : Option (RawMatch × Nat) :=
  match stripPrefixChars name.toList cs with
  | none => none
  | some r1 =>
    let wsChars := r1.takeWhile jsSpace
    let r2 := r1.drop wsChars.length
    match r2 with
    | '(' :: r3 =>
      let argChars := r3.takeWhile (fun c => !(c = ')'))
      if argChars.isEmpty then none
      else
        match r3.drop argChars.length with
        | ')' :: _ =>
          some (⟨name, wsChars, String.mk argChars⟩,
                name.length + wsChars.length + 1 + argChars.length + 1)
        | _ => none
    | _ => none

/-- First alternative in the list that matches at the current position. -/
def firstMatch (cs : List Char) : List String → Option (RawMatch × Nat)
  | [] => none
  | n :: ns =>
    match tryName n cs with
    | some r => some r
    | none => firstMatch cs ns

/-- Try the alternatives in regex order at the current position (regex
alternation takes the first alternative whose whole remainder matches). -/
def tryAt (cs : List Char) : Option (RawMatch × Nat) :=
  firstMatch cs toolNames

/-- Word-boundary test for a position whose next character is a word
character (every alternative starts with a letter): `\b` holds iff the
previous character is absent or not a word character. -/
def boundaryOk : Option Char → Bool
  | none => true
  | some c => !(isWordChar c)

/-- The global scan of `response.match(regex)`.  The first argument counts
characters still to skip inside the previous match; the second is the
previous character (for `\b`). -/
def scan : Nat → Option Char → List Char → List RawMatch
  | Nat.succ n, _, c :: cs => scan n (some c) cs
  | 0, prev, c :: cs =>
    if boundaryOk prev then
      match tryAt (c :: cs) with
      | some (m, k) => m :: scan (k - 1) (some c) cs
      | none => scan 0 (some c) cs
    else scan 0 (some c) cs
  | _, _, [] => []

/-- All matches of the first regex over the model response, left to right. -/
def extractMatches (text : String) : List RawMatch :=
  scan 0 none text.toList

/-- One attempt of the second regex `/(\w+)\s*\(([^)]+)\)/` at the current
position: a greedy non-empty run of word characters, `\s*`, `'('`, a
greedy non-empty run of non-`')'` characters, `')'`. -/
def tryWordCall (cs : List Char) : Option (String × String) :=
  let w := cs.takeWhile isWordChar
  if w.isEmpty then none
  else
    let r1 := (cs.drop w.length).dropWhile jsSpace
    match r1 with
    | '(' :: r2 =>
      let argChars := r2.takeWhile (fun c => !(c = ')'))
      if argChars.isEmpty then none
      else
        match r2.drop argChars.length with
        | ')' :: _ => some (String.mk w, String.mk argChars)
        | _ => none
    | _ => none

/-- The second (non-global) regex: first match over the string. -/
def secondScan : List Char → Option (String × String)
  | [] => none
  | c :: cs =>
    match tryWordCall (c :: cs) with
    | some r => some r
    | none => secondScan cs

/-- JS `argsStr.split(',')` on character lists: the segments between the
commas, in order; no commas gives the whole string, adjacent commas give
empty segments. -/
def splitOnComma : List Char → List (List Char)
  | [] => [[]]
  | c :: t =>
    if c = ',' then [] :: splitOnComma t
    else
      match splitOnComma t with
      | h :: r => (c :: h) :: r
      | [] => [[c]]

/-- `argsStr.split(',').map(arg => arg.trim().replace(/['"]/g, ''))`. -/
def parseArgs (argsStr : String) : List String :=
  (splitOnComma argsStr.toList).map (fun a => stripQuotesAll (trimJS (String.mk a)))

/-- A parsed tool call: the raw matched text (used in the catch message),
the function name and the positional string arguments. -/
structure ToolCall where
  raw : String
  name : String
  args : List String
deriving DecidableEq

/-- The extractor: every first-regex match, re-parsed by the second regex
(`if (match)` drops a failed re-parse) and split into arguments. -/
def extractCalls (text : String) : List ToolCall :=
  (extractMatches text).filterMap (fun m =>
    (secondScan m.rawString.toList).map (fun p => ⟨m.rawString, p.1, parseArgs p.2⟩))

/-! ## Capability interface and dispatcher (`parseAndExecuteTools`, `src/agent.ts` lines 125-257)

Every capability method has TypeScript type `Promise<ToolResult>`; an
awaited promise either fulfils with a `ToolResult` or rejects with a
thrown value.  A thrown value is either an `Error` carrying a message or
something else (`error instanceof Error ? error.message : 'Unknown
error'`). -/

/-- A JavaScript thrown value: an `Error` with a message, or any other
value. -/
inductive JsErr where
  | err : String → JsErr
  | other : JsErr
deriving DecidableEq

/-- The message the agent's `catch` extracts from a thrown value. -/
def jsErrMessage : JsErr → String
  | JsErr.err m => m
  | JsErr.other => "Unknown error"

/-- The Gmail capability operations the dispatcher's `switch` invokes
(`GmailTools` in `src/tools/gmailTools.ts`, seen through its
`Promise<ToolResult>` interface).  `sendEmail`/`createDraft` exist on
`GmailTools` but have no `case` in the `switch`, so they do not appear
here. -/
structure GmailCaps where
  listEmails : Except JsErr ToolResult
  getEmail : String → Except JsErr ToolResult
  searchEmails : String → Int → Except JsErr ToolResult
  getUnreadEmails : Int → Except JsErr ToolResult
  markAsRead : String → Except JsErr ToolResult
  deleteEmail : String → Except JsErr ToolResult
  getEmailContext : String → Except JsErr ToolResult
  analyzeEmailThread : String → Except JsErr ToolResult

/-- The capability providers as the dispatcher sees them: the `FileTools`
and `CommandTools` methods, plus the optional `GmailTools`
(`this.gmailTools?`).  Arguments the extractor guarantees present are
plain strings (JS would pass `undefined` for a missing `args[i]`; the
extractor always produces at least one argument, and the collapse of a
missing argument to `""` is noted where it is used). -/
structure Caps where
  readFile : String → Except JsErr ToolResult
  writeFile : String → String → Except JsErr ToolResult
  editFile : String → String → Except JsErr ToolResult
  executeCommand : String → Except JsErr ToolResult
  listFiles : String → Except JsErr ToolResult
  gmail : Option GmailCaps

/-- The fixed result for a mailbox call without a configured mailbox. -/
def gmailUnavailableResult : ToolResult :=
  ⟨false, none, some "Gmail tools not available", "Gmail functionality not configured"⟩

/-- The fixed result of the safety gate's rejection branch. -/
def blockedResult (command : String) : ToolResult :=
  ⟨false, none, some "Command blocked for safety", "Command blocked: " ++ command⟩

/-- The `default` branch of the `switch`. -/
def unknownToolResult (funcName : String) : ToolResult :=
  ⟨false, none, some "Unknown tool", "Unknown tool: " ++ funcName⟩

/-- The `switch (funcName)` body of `parseAndExecuteTools`: route a parsed
call to the matching capability operation; check the safety gate before
`executeCommand`; check `this.gmailTools` before every mailbox case that
exists; `default` to the unknown-tool result.  Mirrors `src/agent.ts`
lines 127-246: note there is no `case 'sendEmail'` and no
`case 'createDraft'`. -/
def dispatchSwitch (caps : Caps) (call : ToolCall) : Except JsErr ToolResult :=
  let arg0 := (call.args.get? 0).getD ""
  let arg1 := call.args.get? 1
  match call.name with
  | "readFile" => caps.readFile arg0
  | "writeFile" => caps.writeFile arg0 (arg1.getD "")
  | "editFile" => caps.editFile arg0 (arg1.getD "")
  | "executeCommand" =>
    if isSafeCommand arg0 then caps.executeCommand arg0
    else Except.ok (blockedResult arg0)
  | "listFiles" => caps.listFiles (jsOrStr arg0 ".")
  | "listEmails" =>
    match caps.gmail with
    | some g => g.listEmails
    | none => Except.ok gmailUnavailableResult
  | "getEmail" =>
    match caps.gmail with
    | some g => g.getEmail arg0
    | none => Except.ok gmailUnavailableResult
  | "searchEmails" =>
    match caps.gmail with
    | some g => g.searchEmails arg0 (jsOrTen (parseIntOpt arg1))
    | none => Except.ok gmailUnavailableResult
  | "getUnreadEmails" =>
    match caps.gmail with
    | some g => g.getUnreadEmails (jsOrTen (parseIntOpt (call.args.get? 0)))
    | none => Except.ok gmailUnavailableResult
  | "markAsRead" =>
    match caps.gmail with
    | some g => g.markAsRead arg0
    | none => Except.ok gmailUnavailableResult
  | "deleteEmail" =>
    match caps.gmail with
    | some g => g.deleteEmail arg0
    | none => Except.ok gmailUnavailableResult
  | "getEmailContext" =>
    match caps.gmail with
    | some g => g.getEmailContext arg0
    | none => Except.ok gmailUnavailableResult
  | "analyzeEmailThread" =>
    match caps.gmail with
    | some g => g.analyzeEmailThread arg0
    | none => Except.ok gmailUnavailableResult
  | _ => Except.ok (unknownToolResult call.name)

/-- The `try { ... } catch (error) { results.push({...}) }` around each
call: a thrown value becomes a failed result whose `error` is the thrown
message and whose `message` names the raw matched text. -/
def dispatch (caps : Caps) (call : ToolCall) : ToolResult :=
  match dispatchSwitch caps call with
  | Except.ok r => r
  | Except.error e =>
    ⟨false, none, some (jsErrMessage e), "Failed to execute tool: " ++ call.raw⟩

/-- The whole of `parseAndExecuteTools`: extract the calls from the model
response and dispatch each in extraction order, collecting one result per
extracted call. -/
def parseAndExecuteTools (caps : Caps) (response : String) : List ToolResult :=
  (extractCalls response).map (dispatch caps)

/-! ## File capability (`FileTools`, `src/tools/fileTools.ts`)

The Node filesystem and `path` module are an oracle bundle `FS`;
operations that can throw return `Except JsErr`. -/

/-- Result of `fs.statSync`. -/
structure FileStat where
  isDirectory : Bool
  size : Nat
  modified : Nat
deriving DecidableEq

/-- The filesystem/path oracle: `fs.existsSync`, `fs.readFileSync`,
`fs.writeFileSync`, `fs.mkdirSync({recursive:true})`, `fs.readdirSync`,
`fs.statSync`, `path.resolve` (two- and one-argument forms),
`path.dirname` and `path.join`. -/
structure FS where
  pathExists : String → Bool
  readF : String → Except JsErr String
  writeF : String → String → Except JsErr Unit
  mkdirRec : String → Except JsErr Unit
  readdir : String → Except JsErr (List String)
  stat : String → Except JsErr FileStat
  resolve : String → String → String
  resolveAbs : String → String
  dirname : String → String
  join : String → String → String

/-- `FileTools.readFile`. -/
def fileReadFile (fs : FS) (cwd filePath : String) : ToolResult :=
  let fullPath := fs.resolve cwd filePath
  if !(fs.pathExists fullPath) then
    ⟨false, none, some ("File not found: " ++ filePath),
     "File " ++ filePath ++ " does not exist"⟩
  else
    match fs.readF fullPath with
    | Except.ok content =>
      ⟨true, some (Payload.str content), none, "Successfully read file: " ++ filePath⟩
    | Except.error e =>
      ⟨false, none, some (jsErrMessage e), "Failed to read file: " ++ filePath⟩

/-- `FileTools.writeFile`: create the parent directory when missing, then
write; success carries `{ path, size: content.length }`. -/
def fileWriteFile (fs : FS) (cwd filePath content : String) : ToolResult :=
  let fullPath := fs.resolve cwd filePath
  let dir := fs.dirname fullPath
  let attempt : Except JsErr Unit :=
    (if !(fs.pathExists dir) then fs.mkdirRec dir else Except.ok ()) >>= fun _ =>
      fs.writeF fullPath content
  match attempt with
  | Except.ok _ =>
    ⟨true, some (Payload.pathSize filePath content.length), none,
     "Successfully wrote file: " ++ filePath⟩
  | Except.error e =>
    ⟨false, none, some (jsErrMessage e), "Failed to write file: " ++ filePath⟩

/-- `FileTools.editFile`: refuse to edit a non-existent file, else
overwrite it. -/
def fileEditFile (fs : FS) (cwd filePath newContent : String) : ToolResult :=
  let fullPath := fs.resolve cwd filePath
  if !(fs.pathExists fullPath) then
    ⟨false, none, some ("File not found: " ++ filePath),
     "Cannot edit non-existent file: " ++ filePath⟩
  else
    match fs.writeF fullPath newContent with
    | Except.ok _ =>
      ⟨true, some (Payload.pathSize filePath newContent.length), none,
       "Successfully edited file: " ++ filePath⟩
    | Except.error e =>
      ⟨false, none, some (jsErrMessage e), "Failed to edit file: " ++ filePath⟩

/-- `FileTools.listFiles`: stat every directory entry. -/
def fileListFiles (fs : FS) (cwd directory : String) : ToolResult :=
  let fullPath := fs.resolve cwd directory
  if !(fs.pathExists fullPath) then
    ⟨false, none, some ("Directory not found: " ++ directory),
     "Directory " ++ directory ++ " does not exist"⟩
  else
    let attempt : Except JsErr (List FileEntry) := do
      let items ← fs.readdir fullPath
      items.mapM (fun item => do
        let st ← fs.stat (fs.join fullPath item)
        pure ⟨item, st.isDirectory, st.size, st.modified⟩)
    match attempt with
    | Except.ok files =>
      ⟨true, some (Payload.fileList files), none,
       "Successfully listed files in: " ++ directory⟩
    | Except.error e =>
      ⟨false, none, some (jsErrMessage e), "Failed to list files in: " ++ directory⟩

/-! ## Process capability (`CommandTools.executeCommand`, `src/tools/commandTools.ts`) -/

/-- Outcome of one `child_process.exec` run: the `close` event with the
captured streams and exit code (`null` when killed by a signal), or the
`error` event with an `Error` (whose `.message` the handler reads). -/
inductive ProcOutcome where
  | closed : String → String → Option Int → ProcOutcome
  | failed : String → ProcOutcome
deriving DecidableEq

/-- `code || 0` applied to the nullable exit code. -/
def jsOrCode : Option Int → Int
  | none => 0
  | some c => if c = 0 then 0 else c

/-- The template-literal rendering of the nullable exit code. -/
def showCode : Option Int → String
  | none => "null"
  | some c => toString c

/-- `CommandTools.executeCommand`, resolving on `close` (success iff
`code === 0`; `error: stderr || undefined` inside the execution record,
`stderr || 'Command failed'` as the result error) or on `error`. -/
def commandExecute (proc : String → ProcOutcome) (command : String) : ToolResult :=
  match proc command with
  | ProcOutcome.closed stdout stderr code =>
    let execRecord : CommandExecution :=
      ⟨command, stdout, if stderr = "" then none else some stderr, jsOrCode code⟩
    if code = some 0 then
      ⟨true, some (Payload.cmdExec execRecord), none,
       "Command executed successfully: " ++ command⟩
    else
      ⟨false, some (Payload.cmdExec execRecord),
       some (if stderr = "" then "Command failed" else stderr),
       "Command failed with exit code " ++ showCode code ++ ": " ++ command⟩
  | ProcOutcome.failed msg =>
    ⟨false, none, some msg, "Failed to execute command: " ++ command⟩

/-! ## Orchestration loop (`CodingAgent.processMessage`, `src/agent.ts` lines 263-312)

The OpenAI call is an external oracle: it either fulfils with
`response.choices[0]?.message?.content` (a string or `null`) or rejects;
`callOpenAI` turns `null`/`''` into `'No response from AI'` and a
rejection into a fixed apology.  Prompt assembly (`generateSystemPrompt`
and the 10-message window) only feeds that oracle, so it is folded into
the oracle's argument. -/

/-- `'No response from AI'` (`callOpenAI`, falsy content). -/
def noResponseText : String := "No response from AI"

/-- The fixed apology `callOpenAI` substitutes on failure. -/
def apologyText : String := "Sorry, I encountered an error while processing your request."

/-- The model text `processMessage` continues with, given the oracle's
outcome. -/
def aiResponseOf (modelResult : Except JsErr (Option String)) : String :=
  match modelResult with
  | Except.error _ => apologyText
  | Except.ok none => noResponseText
  | Except.ok (some s) => if s = "" then noResponseText else s

/-- The `Data:` line of one formatted tool result: only textual, truthy
(non-empty) payloads, previewed to 200 characters
(`result.data.substring(0, 200)` plus an ellipsis marker). -/
def dataPreview (r : ToolResult) : String :=
  match r.data with
  | some (Payload.str d) =>
    if d = "" then ""
    else "   Data: " ++ d.take 200 ++ (if d.length > 200 then "..." else "") ++ "\n"
  | _ => ""

/-- One entry of the `Tool Results:` block
(`${index + 1}. ${result.message}` plus optional error and data lines). -/
def formatToolResult (idx : Nat) (r : ToolResult) : String :=
  toString (idx + 1) ++ ". " ++ r.message ++ "\n" ++
  (match r.error with
   | some e => "   Error: " ++ e ++ "\n"
   | none => "") ++
  dataPreview r

/-- The block appended to the model text when at least one tool ran. -/
def formatToolResults (results : List ToolResult) : String :=
  if results.isEmpty then ""
  else "\n\nTool Results:\n" ++
    String.join (results.enum.map (fun p => formatToolResult p.1 p.2))

/-- `AgentContext` from `src/types.ts`. -/
structure AgentContext where
  currentDirectory : String
  recentFiles : List String
  recentCommands : List String
  conversationHistory : List AgentMessage

/-- The mutable state of one `CodingAgent`: its context plus the private
current-directory copies held by `FileTools` and `CommandTools`, and the
optional Gmail capability chosen at construction. -/
structure AgentState where
  context : AgentContext
  fileDir : String
  commandDir : String
  gmail : Option GmailCaps

/-- The `CodingAgent` constructor: context starts at the process cwd with
empty `recentFiles`, `recentCommands` and `conversationHistory`; both
tools start at the same cwd; Gmail tools exist iff a config was given. -/
def mkAgent (cwd : String) (gmail : Option GmailCaps) : AgentState :=
  ⟨⟨cwd, [], [], []⟩, cwd, cwd, gmail⟩

/-- The capability bundle the dispatcher sees for a given agent state:
each file/command interface entry fulfils with the corresponding
implementation's result (those implementations catch internally and never
reject). -/
def mkCaps (fs : FS) (proc : String → String → ProcOutcome) (st : AgentState) : Caps where
  readFile := fun p => Except.ok (fileReadFile fs st.fileDir p)
  writeFile := fun p c => Except.ok (fileWriteFile fs st.fileDir p c)
  editFile := fun p c => Except.ok (fileEditFile fs st.fileDir p c)
  executeCommand := fun c => Except.ok (commandExecute (proc st.commandDir) c)
  listFiles := fun d => Except.ok (fileListFiles fs st.fileDir d)
  gmail := st.gmail

/-- Observable actions of one turn, used to state that a turn made no
model call and dispatched no tool. -/
inductive Event where
  | modelCall
  | dispatched : String → Event
  | directTool : String → Event
  | dirChanged : String → Event
  | exited
deriving DecidableEq

/-- `processMessage(userMessage)`: append the user message, obtain the
model text (oracle), extract and dispatch the tool calls it mentions,
append the composed assistant message, return the composed text.  `t1`
and `t2` are the two `new Date()` timestamps. -/
def processMessage (fs : FS) (proc : String → String → ProcOutcome)
    (st : AgentState) (userMessage : String)
    (modelResult : Except JsErr (Option String)) (t1 t2 : Nat) :
    AgentState × String × List Event :=
  let hist1 := st.context.conversationHistory ++ [⟨Role.user, userMessage, t1⟩]
  let aiResponse := aiResponseOf modelResult
  let toolResults := parseAndExecuteTools (mkCaps fs proc st) aiResponse
  let finalResponse := aiResponse ++ formatToolResults toolResults
  let hist2 := hist1 ++ [⟨Role.assistant, finalResponse, t2⟩]
  ({ st with context := { st.context with conversationHistory := hist2 } },
   finalResponse,
   Event.modelCall :: (extractCalls aiResponse).map (fun c => Event.dispatched c.name))

/-- The public operations of `CodingAgent`: message processing, the
directory setter, every direct tool method, and the two context readers.
Oracle outcomes consumed during an operation travel with it. -/
inductive AgentOp where
  | processMessage : String → Except JsErr (Option String) → Nat → Nat → AgentOp
  | setCurrentDirectory : String → AgentOp
  | readFile : String → AgentOp
  | writeFile : String → String → AgentOp
  | editFile : String → String → AgentOp
  | executeCommand : String → AgentOp
  | listFiles : String → AgentOp
  | listEmails : AgentOp
  | getEmail : String → AgentOp
  | sendEmail : AgentOp
  | createDraft : AgentOp
  | searchEmails : String → Int → AgentOp
  | getUnreadEmails : Int → AgentOp
  | markAsRead : String → AgentOp
  | deleteEmail : String → AgentOp
  | getEmailContext : String → AgentOp
  | analyzeEmailThread : String → AgentOp
  | getContext : AgentOp
  | getMCPContext : AgentOp

/-- One public operation of the agent.  The direct tool methods delegate
to the capability providers and leave the agent's context untouched;
`setCurrentDirectory` updates the context and both tools' private copies
(`FileTools.setCurrentDirectory` resolves the path, `CommandTools`'s does
not); the context readers are pure. -/
def step (fs : FS) (proc : String → String → ProcOutcome)
    (st : AgentState) : AgentOp → AgentState × List Event
  | AgentOp.processMessage m r t1 t2 =>
    let x := processMessage fs proc st m r t1 t2
    (x.1, x.2.2)
  | AgentOp.setCurrentDirectory d =>
    ({ st with context := { st.context with currentDirectory := d },
               fileDir := fs.resolveAbs d,
               commandDir := d },
     [Event.dirChanged d])
  | AgentOp.readFile _ => (st, [Event.directTool "readFile"])
  | AgentOp.writeFile _ _ => (st, [Event.directTool "writeFile"])
  | AgentOp.editFile _ _ => (st, [Event.directTool "editFile"])
  | AgentOp.executeCommand _ => (st, [Event.directTool "executeCommand"])
  | AgentOp.listFiles _ => (st, [Event.directTool "listFiles"])
  | AgentOp.listEmails => (st, [Event.directTool "listEmails"])
  | AgentOp.getEmail _ => (st, [Event.directTool "getEmail"])
  | AgentOp.sendEmail => (st, [Event.directTool "sendEmail"])
  | AgentOp.createDraft => (st, [Event.directTool "createDraft"])
  | AgentOp.searchEmails _ _ => (st, [Event.directTool "searchEmails"])
  | AgentOp.getUnreadEmails _ => (st, [Event.directTool "getUnreadEmails"])
  | AgentOp.markAsRead _ => (st, [Event.directTool "markAsRead"])
  | AgentOp.deleteEmail _ => (st, [Event.directTool "deleteEmail"])
  | AgentOp.getEmailContext _ => (st, [Event.directTool "getEmailContext"])
  | AgentOp.analyzeEmailThread _ => (st, [Event.directTool "analyzeEmailThread"])
  | AgentOp.getContext => (st, [])
  | AgentOp.getMCPContext => (st, [])

/-- Run a sequence of agent operations from a state. -/
def runOps (fs : FS) (proc : String → String → ProcOutcome)
    (st : AgentState) (ops : List AgentOp) : AgentState :=
  ops.foldl (fun s op => (step fs proc s op).1) st

/-! ## CLI loop body (`CLI.start`, `src/cli.ts`)

One iteration of the `while (true)` loop: empty/whitespace-only input is
skipped (`if (!input.trim()) continue`); then the special commands
(`help`, `quit`, `exit`, `clear`, `context` — `clear` only prints, it
does not clear anything); then the built-in verbs on
`input.trim().split(' ')`; otherwise the text goes to
`agent.processMessage`. -/

/-- The built-in verb handler `handleBuiltInCommands`: `none` when the
first word is no known verb (the input then goes to the agent as chat).
Each verb checks its arity, then calls the matching direct agent method;
`search`/`unread` use the agent's default `maxResults = 10`. -/
def cliBuiltin (fs : FS) (proc : String → String → ProcOutcome)
    (st : AgentState) (parts : List String) :
    Option (AgentState × List Event) :=
  match asciiLowerStr ((parts.get? 0).getD "") with
  | "cd" =>
    some (if parts.length < 2 then (st, [])
          else step fs proc st (AgentOp.setCurrentDirectory ((parts.get? 1).getD "")))
  | "ls" => some (step fs proc st (AgentOp.listFiles "."))
  | "list" => some (step fs proc st (AgentOp.listFiles "."))
  | "read" =>
    some (if parts.length < 2 then (st, [])
          else step fs proc st (AgentOp.readFile ((parts.get? 1).getD "")))
  | "write" =>
    some (if parts.length < 3 then (st, [])
          else step fs proc st (AgentOp.writeFile ((parts.get? 1).getD "")
                 (String.intercalate " " (parts.drop 2))))
  | "run" =>
    some (if parts.length < 2 then (st, [])
          else step fs proc st (AgentOp.executeCommand
                 (String.intercalate " " (parts.drop 1))))
  | "emails" => some (step fs proc st AgentOp.listEmails)
  | "unread" => some (step fs proc st (AgentOp.getUnreadEmails 10))
  | "search" =>
    some (if parts.length < 2 then (st, [])
          else step fs proc st (AgentOp.searchEmails
                 (String.intercalate " " (parts.drop 1)) 10))
  | "email" =>
    some (if parts.length < 2 then (st, [])
          else step fs proc st (AgentOp.getEmail ((parts.get? 1).getD "")))
  | "send" =>
    some (if parts.length < 4 then (st, []) else step fs proc st AgentOp.sendEmail)
  | "draft" =>
    some (if parts.length < 4 then (st, []) else step fs proc st AgentOp.createDraft)
  | "read-email" =>
    some (if parts.length < 2 then (st, [])
          else step fs proc st (AgentOp.markAsRead ((parts.get? 1).getD "")))
  | "delete-email" =>
    some (if parts.length < 2 then (st, [])
          else step fs proc st (AgentOp.deleteEmail ((parts.get? 1).getD "")))
  | "analyze" =>
    some (if parts.length < 2 then (st, [])
          else step fs proc st (AgentOp.analyzeEmailThread ((parts.get? 1).getD "")))
  | _ => none

/-- One iteration of `CLI.start`'s loop over one line of user input. -/
def cliTurn (fs : FS) (proc : String → String → ProcOutcome)
    (modelResult : Except JsErr (Option String)) (t1 t2 : Nat)
    (st : AgentState) (input : String) : AgentState × List Event :=
  if trimJS input = "" then (st, [])
  else
    let trimmedLower := asciiLowerStr (trimJS input)
    if trimmedLower = "help" || trimmedLower = "clear" || trimmedLower = "context" then
      (st, [])
    else if trimmedLower = "quit" || trimmedLower = "exit" then
      (st, [Event.exited])
    else
      match cliBuiltin fs proc st ((trimJS input).splitOn " ") with
      | some res => res
      | none =>
        let x := processMessage fs proc st input modelResult t1 t2
        (x.1, x.2.2)

/-! ## Reference-level model of `getContext` (`src/agent.ts` lines 453-455)

`getContext()` returns `{ ...this.context }`: the spread copies the
field VALUES of the context record into a fresh object.  The three array
fields are references into the JS heap, so the copy shares the arrays
with the stored context.  To express that, this model makes the arrays
heap cells addressed by numbers. -/

/-- The JS heap restricted to the cells the context's arrays live in. -/
structure Store where
  msgCells : Nat → List AgentMessage
  strCells : Nat → List String

/-- The context record with its array-valued fields as heap references. -/
structure ContextRef where
  currentDirectory : String
  recentFiles : Nat
  recentCommands : Nat
  conversationHistory : Nat
deriving DecidableEq

/-- `getContext()`: `return { ...this.context }` — a fresh record holding
the same field values (hence the same array references). -/
def getContextJS (ctx : ContextRef) : ContextRef :=
  { currentDirectory := ctx.currentDirectory
    recentFiles := ctx.recentFiles
    recentCommands := ctx.recentCommands
    conversationHistory := ctx.conversationHistory }

/-- `array.push(m)` on a message cell of the heap. -/
def pushMsgCell (s : Store) (r : Nat) (m : AgentMessage) : Store :=
  { s with msgCells := fun i => if i = r then s.msgCells i ++ [m] else s.msgCells i }

/-- The conversation history the stored context sees in a given heap. -/
def histOf (s : Store) (ctx : ContextRef) : List AgentMessage :=
  s.msgCells ctx.conversationHistory

/-- A heap whose cells are all empty. -/
def emptyStore : Store :=
  ⟨fun _ => [], fun _ => []⟩

/-! ## Concrete oracle instances for witnesses -/

/-- A trivial successful result. -/
def okResult : ToolResult := ⟨true, none, none, "ok"⟩

/-- Capabilities whose every operation fulfils with `okResult`; no Gmail
configured. -/
def trivialCaps : Caps where
  readFile := fun _ => Except.ok okResult
  writeFile := fun _ _ => Except.ok okResult
  editFile := fun _ _ => Except.ok okResult
  executeCommand := fun _ => Except.ok okResult
  listFiles := fun _ => Except.ok okResult
  gmail := none

/-- Gmail capabilities that record, in the result message, which operation
ran and with which arguments — used to observe what the dispatcher
passed. -/
def recGmail : GmailCaps where
  listEmails := Except.ok ⟨true, none, none, "listEmails"⟩
  getEmail := fun s => Except.ok ⟨true, none, none, "getEmail:" ++ s⟩
  searchEmails := fun q n => Except.ok ⟨true, none, none, "searchEmails:" ++ q ++ ":" ++ toString n⟩
  getUnreadEmails := fun n => Except.ok ⟨true, none, none, "getUnreadEmails:" ++ toString n⟩
  markAsRead := fun s => Except.ok ⟨true, none, none, "markAsRead:" ++ s⟩
  deleteEmail := fun s => Except.ok ⟨true, none, none, "deleteEmail:" ++ s⟩
  getEmailContext := fun s => Except.ok ⟨true, none, none, "getEmailContext:" ++ s⟩
  analyzeEmailThread := fun s => Except.ok ⟨true, none, none, "analyzeEmailThread:" ++ s⟩

/-- `trivialCaps` with the recording Gmail capability configured. -/
def recCaps : Caps :=
  { trivialCaps with gmail := some recGmail }

/-- A trivial filesystem oracle. -/
def trivFS : FS where
  pathExists := fun _ => false
  readF := fun _ => Except.ok ""
  writeF := fun _ _ => Except.ok ()
  mkdirRec := fun _ => Except.ok ()
  readdir := fun _ => Except.ok []
  stat := fun _ => Except.ok ⟨false, 0, 0⟩
  resolve := fun _ p => p
  resolveAbs := fun p => p
  dirname := fun p => p
  join := fun a b => a ++ "/" ++ b

/-- A trivial process oracle: every command closes cleanly. -/
def trivProc : String → String → ProcOutcome :=
  fun _ _ => ProcOutcome.closed "" "" (some 0)

/-! ## Theorems -/

/-- Claim C1, evaluated at the failing inputs: with no mailbox capability
configured, dispatching the eight mailbox call names that have `switch`
cases yields the fixed `"Gmail tools not available"` failure, but
`sendEmail` and `createDraft` — recognized by the extraction regex and
advertised in the system prompt — have no `switch` case and fall through
to `default`, yielding `error = "Unknown tool"` instead. -/
theorem dispatch_noGmail_per_name :
    dispatch trivialCaps ⟨"sendEmail(d)", "sendEmail", ["d"]⟩ =
      ⟨false, none, some "Unknown tool", "Unknown tool: sendEmail"⟩ ∧
    dispatch trivialCaps ⟨"createDraft(d)", "createDraft", ["d"]⟩ =
      ⟨false, none, some "Unknown tool", "Unknown tool: createDraft"⟩ ∧
    dispatch trivialCaps ⟨"listEmails(x)", "listEmails", ["x"]⟩ = gmailUnavailableResult ∧
    dispatch trivialCaps ⟨"getEmail(x)", "getEmail", ["x"]⟩ = gmailUnavailableResult ∧
    dispatch trivialCaps ⟨"searchEmails(x)", "searchEmails", ["x"]⟩ = gmailUnavailableResult ∧
    dispatch trivialCaps ⟨"getUnreadEmails(5)", "getUnreadEmails", ["5"]⟩ = gmailUnavailableResult ∧
    dispatch trivialCaps ⟨"markAsRead(x)", "markAsRead", ["x"]⟩ = gmailUnavailableResult ∧
    dispatch trivialCaps ⟨"deleteEmail(x)", "deleteEmail", ["x"]⟩ = gmailUnavailableResult ∧
    dispatch trivialCaps ⟨"getEmailContext(x)", "getEmailContext", ["x"]⟩ = gmailUnavailableResult ∧
    dispatch trivialCaps ⟨"analyzeEmailThread(x)", "analyzeEmailThread", ["x"]⟩ = gmailUnavailableResult := by
  decide

/-- Claim C8, counterexample: the argument `"0"` parses to the integer `0`,
yet the dispatcher passes the default `10` to `searchEmails`
(`parseInt(args[1]) || 10` treats a parsed `0` as falsy) — so the default
is not used *exactly* when parsing fails. -/
theorem searchEmails_zero_gets_default :
    parseIntStr "0" = some 0 ∧
    dispatch recCaps ⟨"searchEmails(q, 0)", "searchEmails", ["q", "0"]⟩ =
      ⟨true, none, none, "searchEmails:q:10"⟩ := by
  decide

/-- Claim C8, amended: the default `10` is used exactly when the optional
maxResults argument fails to parse as an integer or parses to `0`; any
non-zero parsed integer is passed through unchanged (observed through a
Gmail capability that echoes the integer it receives). -/
theorem dispatch_maxResults_coercion (s : String) (n : Int) :
    (parseIntStr s = some n → n ≠ 0 →
      dispatch recCaps ⟨"x", "searchEmails", ["q", s]⟩ =
        ⟨true, none, none, "searchEmails:q:" ++ toString n⟩ ∧
      dispatch recCaps ⟨"x", "getUnreadEmails", [s]⟩ =
        ⟨true, none, none, "getUnreadEmails:" ++ toString n⟩) ∧
    ((parseIntStr s = none ∨ parseIntStr s = some 0) →
      dispatch recCaps ⟨"x", "searchEmails", ["q", s]⟩ =
        ⟨true, none, none, "searchEmails:q:10"⟩ ∧
      dispatch recCaps ⟨"x", "getUnreadEmails", [s]⟩ =
        ⟨true, none, none, "getUnreadEmails:10"⟩) := by
  constructor
  · intro h hn
    constructor <;>
      simp [dispatch, dispatchSwitch, recCaps, recGmail, trivialCaps, parseIntOpt, h, jsOrTen, hn]
  · intro h
    rcases h with h | h <;> constructor <;>
        simp [dispatch, dispatchSwitch, recCaps, recGmail, trivialCaps, parseIntOpt, h, jsOrTen] <;>
      decide

/-- Witness for the amended C8 theorem at the inputs `"7"` and `"0"`. -/
theorem dispatch_maxResults_coercion_witness :
    dispatch recCaps ⟨"x", "searchEmails", ["q", "7"]⟩ =
      ⟨true, none, none, "searchEmails:q:" ++ toString (7 : Int)⟩ ∧
    dispatch recCaps ⟨"x", "getUnreadEmails", ["0"]⟩ =
      ⟨true, none, none, "getUnreadEmails:10"⟩ :=
  ⟨((dispatch_maxResults_coercion "7" 7).1 (by decide) (by decide)).1,
   ((dispatch_maxResults_coercion "0" 0).2 (Or.inr (by decide))).2⟩

/-- Fixed context record and message for the C6 counterexample. -/
def ctxRef0 : ContextRef := ⟨"/", 0, 1, 2⟩

/-- A concrete message pushed through the snapshot in the C6
counterexample. -/
def msg0 : AgentMessage := ⟨Role.user, "hi", 0⟩

/-- Claim C6, counterexample: pushing a message onto the
`conversationHistory` array of the context returned by `getContext`
changes the conversation history the agent's stored context sees — the
spread copy shares its arrays with the original, so the snapshot is not
a defensive copy. -/
theorem getContext_not_defensive :
    histOf (pushMsgCell emptyStore (getContextJS ctxRef0).conversationHistory msg0) ctxRef0 ≠
      histOf emptyStore ctxRef0 := by
  decide

/-- Claim C6, amended: `getContext` returns a *shallow* copy — a fresh
record with the same field values, so the sequence fields alias the
stored arrays and a push through the snapshot's `conversationHistory`
reference appends to the history the stored context sees. -/
theorem getContext_shallow_copy (ctx : ContextRef) (s : Store) (m : AgentMessage) :
    getContextJS ctx = ctx ∧
    histOf (pushMsgCell s (getContextJS ctx).conversationHistory m) ctx =
      histOf s ctx ++ [m] := by
  constructor
  · rfl
  · simp [getContextJS, pushMsgCell, histOf]

/-- Claim C3: `isSafeCommand` returns `false` exactly when the lower-cased
command contains a deny-listed substring, and the dispatcher then returns
the fixed safety-block failure without invoking the Process capability
(the result is the same for every capability bundle, so no capability
operation can have been consulted). -/
theorem isSafeCommand_deny_gate (caps : Caps) (raw command : String) :
    (isSafeCommand command = false ↔
      ∃ d ∈ dangerousCommands,
        containsSub (asciiLowerStr command).toList (asciiLowerStr d).toList = true) ∧
    (isSafeCommand command = false →
      dispatch caps ⟨raw, "executeCommand", [command]⟩ = blockedResult command) := by
  constructor
  · simp [isSafeCommand, List.any_eq_true]
  · intro h
    simp [dispatch, dispatchSwitch, h]

/-- Witness for C3 at the blocked command `rm -rf /`. -/
theorem isSafeCommand_deny_gate_witness :
    dispatch trivialCaps ⟨"executeCommand(rm -rf /)", "executeCommand", ["rm -rf /"]⟩ =
      blockedResult "rm -rf /" :=
  (isSafeCommand_deny_gate trivialCaps "executeCommand(rm -rf /)" "rm -rf /").2 (by decide)

/-- Claim C4: a thrown value from the underlying capability is caught and
becomes a failed Result whose `error` is the thrown message (or
`"Unknown error"` for a non-`Error` value); dispatch is a total function
into Results, and one Result is collected per extracted call. -/
theorem dispatch_catches_exceptions (caps : Caps) (call : ToolCall) (e : JsErr)
    (h : dispatchSwitch caps call = Except.error e) (text : String) :
    dispatch caps call =
      ⟨false, none, some (jsErrMessage e), "Failed to execute tool: " ++ call.raw⟩ ∧
    (parseAndExecuteTools caps text).length = (extractCalls text).length := by
  constructor
  · simp [dispatch, h]
  · simp [parseAndExecuteTools]

/-- Capabilities whose `readFile` rejects with an `Error` carrying the
message `"boom"`. -/
def throwingCaps : Caps :=
  { trivialCaps with readFile := fun _ => Except.error (JsErr.err "boom") }

/-- Witness for C4: a rejecting `readFile` capability is caught. -/
theorem dispatch_catches_exceptions_witness :
    dispatch throwingCaps ⟨"readFile(x)", "readFile", ["x"]⟩ =
      ⟨false, none, some "boom", "Failed to execute tool: readFile(x)"⟩ ∧
    (parseAndExecuteTools throwingCaps "readFile(x)").length =
      (extractCalls "readFile(x)").length :=
  dispatch_catches_exceptions throwingCaps ⟨"readFile(x)", "readFile", ["x"]⟩
    (JsErr.err "boom") rfl "readFile(x)"

/-- A string all of whose characters are JS whitespace trims to empty. -/
lemma trimJS_of_all_space (s : String) (h : ∀ c ∈ s.toList, jsSpace c = true) :
    trimJS s = "" := by
  have h1 : List.dropWhile jsSpace s.data = [] := List.dropWhile_eq_nil_iff.mpr h
  simp [trimJS, h1]

/-- Claim C7: on empty or whitespace-only input, one iteration of the CLI
loop leaves the agent state unchanged and performs no observable action —
no message append, no model call, no tool dispatch. -/
theorem cli_whitespace_noop (fs : FS) (proc : String → String → ProcOutcome)
    (modelResult : Except JsErr (Option String)) (t1 t2 : Nat)
    (st : AgentState) (input : String)
    (h : ∀ c ∈ input.toList, jsSpace c = true) :
    cliTurn fs proc modelResult t1 t2 st input = (st, []) := by
  simp [cliTurn, trimJS_of_all_space input h]

/-- Witness for C7 at the whitespace-only input `" \t "`. -/
theorem cli_whitespace_noop_witness :
    cliTurn trivFS trivProc (Except.ok none) 0 0 (mkAgent "/" none) " \t " =
      (mkAgent "/" none, []) :=
  cli_whitespace_noop trivFS trivProc (Except.ok none) 0 0 (mkAgent "/" none) " \t "
    (by decide)

/-- Every agent operation leaves `recentFiles` and `recentCommands`
unchanged. -/
lemma step_preserves_recent (fs : FS) (proc : String → String → ProcOutcome)
    (st : AgentState) (op : AgentOp) :
    (step fs proc st op).1.context.recentFiles = st.context.recentFiles ∧
    (step fs proc st op).1.context.recentCommands = st.context.recentCommands := by
  cases op <;> simp [step, processMessage]

/-- Claim C10: in every state reachable from the constructor by any
sequence of agent operations, `recentFiles` and `recentCommands` are
empty — they start empty and no operation appends to them. -/
theorem agent_recent_lists_empty (fs : FS) (proc : String → String → ProcOutcome)
    (cwd : String) (gmail : Option GmailCaps) (ops : List AgentOp) :
    (runOps fs proc (mkAgent cwd gmail) ops).context.recentFiles = [] ∧
    (runOps fs proc (mkAgent cwd gmail) ops).context.recentCommands = [] := by
  have key : ∀ (l : List AgentOp) (st : AgentState),
      st.context.recentFiles = [] → st.context.recentCommands = [] →
      (runOps fs proc st l).context.recentFiles = [] ∧
      (runOps fs proc st l).context.recentCommands = [] := by
    intro l
    induction l with
    | nil => intro st h1 h2; exact ⟨h1, h2⟩
    | cons op rest ih =>
      intro st h1 h2
      have hp := step_preserves_recent fs proc st op
      have := ih (step fs proc st op).1 (hp.1.trans h1) (hp.2.trans h2)
      simpa [runOps, List.foldl] using this
  exact key ops (mkAgent cwd gmail) rfl rfl

/-- A successful alternative always captures at least one argument
character (the regex requires `[^)]+`). -/
lemma tryName_args_ne (name : String) (cs : List Char) (m : RawMatch) (k : Nat)
    (h : tryName name cs = some (m, k)) : m.args ≠ "" := by
  unfold tryName at h
  split at h
  · exact absurd h (by simp)
  · dsimp only at h
    split at h
    · split at h
      · exact absurd h (by simp)
      · split at h
        · rename_i x1 hsp1 r2x r3 hr2 hempty rest tl hdrop
          cases h
          intro hcon
          have hnil : (r3.takeWhile (fun c => !(c = ')'))) = [] := by
            simpa [String.ext_iff] using congrArg String.data hcon
          rw [hnil] at hempty
          simp at hempty
        · exact absurd h (by simp)
    · exact absurd h (by simp)

/-- `firstMatch` only succeeds through some `tryName`. -/
lemma firstMatch_args_ne (cs : List Char) (names : List String) (m : RawMatch) (k : Nat)
    (h : firstMatch cs names = some (m, k)) : m.args ≠ "" := by
  induction names with
  | nil => simp [firstMatch] at h
  | cons n ns ih =>
    unfold firstMatch at h
    split at h
    · rename_i r hr
      cases h
      exact tryName_args_ne n cs m k hr
    · exact ih h

/-- Every match the global scan emits has a non-empty argument segment. -/
lemma scan_args_ne :
    ∀ (cs : List Char) (skip : Nat) (prev : Option Char) (m : RawMatch),
      m ∈ scan skip prev cs → m.args ≠ "" := by
  intro cs
  induction cs with
  | nil =>
    intro skip prev m hm
    cases skip <;> simp [scan] at hm
  | cons c t ih =>
    intro skip prev m hm
    cases skip with
    | succ n => exact ih n (some c) m (by simpa [scan] using hm)
    | zero =>
      by_cases hb : boundaryOk prev = true
      · cases htry : tryAt (c :: t) with
        | none =>
          simp only [scan, hb, if_true, htry] at hm
          exact ih 0 (some c) m hm
        | some r =>
          obtain ⟨m0, k⟩ := r
          simp only [scan, hb, if_true, htry] at hm
          rcases List.mem_cons.mp hm with h1 | h2
          · subst h1
            exact firstMatch_args_ne (c :: t) toolNames m k htry
          · exact ih (k - 1) (some c) m h2
      · simp only [scan, hb, if_false, Bool.false_eq_true] at hm
        exact ih 0 (some c) m hm

/-- Claim C9: the extraction pattern requires at least one non-`)`
character between the parentheses, so every extracted match has a
non-empty argument segment; in particular `listEmails()` and
`getUnreadEmails()` are never extracted and a response consisting of such
calls dispatches nothing. -/
theorem extractor_rejects_empty_parens (text : String) (m : RawMatch)
    (hm : m ∈ extractMatches text) :
    m.args ≠ "" ∧
    extractCalls "listEmails()" = [] ∧
    extractCalls "getUnreadEmails()" = [] ∧
    parseAndExecuteTools trivialCaps "Call listEmails() and getUnreadEmails() now." = [] := by
  refine ⟨scan_args_ne text.toList 0 none m hm, by decide, by decide, by decide⟩

/-- Witness for C9 at the text `"readFile(x)"` and its single match. -/
theorem extractor_rejects_empty_parens_witness :
    (⟨"readFile", [], "x"⟩ : RawMatch).args ≠ "" ∧
    extractCalls "listEmails()" = [] ∧
    extractCalls "getUnreadEmails()" = [] ∧
    parseAndExecuteTools trivialCaps "Call listEmails() and getUnreadEmails() now." = [] :=
  extractor_rejects_empty_parens "readFile(x)" ⟨"readFile", [], "x"⟩ (by decide)

/-! ## Result invariant (claim C5) -/

/-- Well-formedness of one interface entry: whenever it fulfils, the
fulfilled Result satisfies the Result invariant. -/
def ExceptWF (x : Except JsErr ToolResult) : Prop :=
  ∀ r, x = Except.ok r → resultInv r

/-- Well-formedness of a Gmail capability: every operation fulfils only
with invariant-satisfying Results. -/
structure GmailWF (g : GmailCaps) : Prop where
  listEmails : ExceptWF g.listEmails
  getEmail : ∀ s, ExceptWF (g.getEmail s)
  searchEmails : ∀ s n, ExceptWF (g.searchEmails s n)
  getUnreadEmails : ∀ n, ExceptWF (g.getUnreadEmails n)
  markAsRead : ∀ s, ExceptWF (g.markAsRead s)
  deleteEmail : ∀ s, ExceptWF (g.deleteEmail s)
  getEmailContext : ∀ s, ExceptWF (g.getEmailContext s)
  analyzeEmailThread : ∀ s, ExceptWF (g.analyzeEmailThread s)

/-- Well-formedness of the whole capability bundle. -/
structure CapsWF (caps : Caps) : Prop where
  readFile : ∀ s, ExceptWF (caps.readFile s)
  writeFile : ∀ s t, ExceptWF (caps.writeFile s t)
  editFile : ∀ s t, ExceptWF (caps.editFile s t)
  executeCommand : ∀ s, ExceptWF (caps.executeCommand s)
  listFiles : ∀ s, ExceptWF (caps.listFiles s)
  gmail : ∀ g, caps.gmail = some g → GmailWF g

/-- `FileTools.readFile` only sets `error` on its failure branches. -/
lemma fileReadFile_inv (fs : FS) (cwd p : String) :
    resultInv (fileReadFile fs cwd p) := by
  unfold fileReadFile resultInv
  dsimp only
  split
  · simp
  · split <;> simp

/-- `FileTools.writeFile` only sets `error` on its failure branch. -/
lemma fileWriteFile_inv (fs : FS) (cwd p c : String) :
    resultInv (fileWriteFile fs cwd p c) := by
  unfold fileWriteFile resultInv
  dsimp only
  split <;> simp

/-- `FileTools.editFile` only sets `error` on its failure branches. -/
lemma fileEditFile_inv (fs : FS) (cwd p c : String) :
    resultInv (fileEditFile fs cwd p c) := by
  unfold fileEditFile resultInv
  dsimp only
  split
  · simp
  · split <;> simp

/-- `FileTools.listFiles` only sets `error` on its failure branches. -/
lemma fileListFiles_inv (fs : FS) (cwd d : String) :
    resultInv (fileListFiles fs cwd d) := by
  unfold fileListFiles resultInv
  dsimp only
  split
  · simp
  · split <;> simp

/-- `CommandTools.executeCommand` only sets `error` on its failure
branches. -/
lemma commandExecute_inv (proc : String → ProcOutcome) (cmd : String) :
    resultInv (commandExecute proc cmd) := by
  unfold commandExecute resultInv
  dsimp only
  split
  · split <;> simp
  · simp

/-- Every fulfilled value of the dispatcher's `switch` satisfies the
invariant when the capability bundle is well-formed. -/
lemma dispatchSwitch_inv (caps : Caps) (call : ToolCall) (h : CapsWF caps)
    (r : ToolResult) (hr : dispatchSwitch caps call = Except.ok r) :
    resultInv r := by
  unfold dispatchSwitch at hr
  dsimp only at hr
  split at hr
  · exact h.readFile _ r hr
  · exact h.writeFile _ _ r hr
  · exact h.editFile _ _ r hr
  · split at hr
    · exact h.executeCommand _ r hr
    · cases hr
      unfold blockedResult resultInv
      simp
  · exact h.listFiles _ r hr
  · split at hr
    · rename_i g hg
      exact (h.gmail g hg).listEmails r hr
    · cases hr; decide
  · split at hr
    · rename_i g hg
      exact (h.gmail g hg).getEmail _ r hr
    · cases hr; decide
  · split at hr
    · rename_i g hg
      exact (h.gmail g hg).searchEmails _ _ r hr
    · cases hr; decide
  · split at hr
    · rename_i g hg
      exact (h.gmail g hg).getUnreadEmails _ r hr
    · cases hr; decide
  · split at hr
    · rename_i g hg
      exact (h.gmail g hg).markAsRead _ r hr
    · cases hr; decide
  · split at hr
    · rename_i g hg
      exact (h.gmail g hg).deleteEmail _ r hr
    · cases hr; decide
  · split at hr
    · rename_i g hg
      exact (h.gmail g hg).getEmailContext _ r hr
    · cases hr; decide
  · split at hr
    · rename_i g hg
      exact (h.gmail g hg).analyzeEmailThread _ r hr
    · cases hr; decide
  · cases hr
    unfold unknownToolResult resultInv
    simp

/-- Claim C5: every Result produced by the core operations — file
read/write/edit/list, command execution, and dispatch over a well-formed
capability bundle — satisfies the Result invariant (`error` set implies
`success = false`; `message` is a total field of the type). -/
theorem core_results_invariant (fs : FS) (cwd p c d cmd : String)
    (proc : String → ProcOutcome) (caps : Caps) (call : ToolCall)
    (h : CapsWF caps) :
    resultInv (fileReadFile fs cwd p) ∧
    resultInv (fileWriteFile fs cwd p c) ∧
    resultInv (fileEditFile fs cwd p c) ∧
    resultInv (fileListFiles fs cwd d) ∧
    resultInv (commandExecute proc cmd) ∧
    resultInv (dispatch caps call) := by
  refine ⟨fileReadFile_inv fs cwd p, fileWriteFile_inv fs cwd p c,
    fileEditFile_inv fs cwd p c, fileListFiles_inv fs cwd d,
    commandExecute_inv proc cmd, ?_⟩
  unfold dispatch
  cases hds : dispatchSwitch caps call with
  | ok r => exact dispatchSwitch_inv caps call h r hds
  | error e => intro; rfl

/-- `trivialCaps` is well-formed. -/
lemma trivialCapsWF : CapsWF trivialCaps := by
  refine ⟨?_, ?_, ?_, ?_, ?_, ?_⟩
  · intro s r hr; cases hr; decide
  · intro s t r hr; cases hr; decide
  · intro s t r hr; cases hr; decide
  · intro s r hr; cases hr; decide
  · intro s r hr; cases hr; decide
  · intro g hg; cases hg

/-- Witness for C5 at concrete oracles and a concrete call. -/
theorem core_results_invariant_witness :
    resultInv (fileReadFile trivFS "/" "a.txt") ∧
    resultInv (fileWriteFile trivFS "/" "a.txt" "c") ∧
    resultInv (fileEditFile trivFS "/" "a.txt" "c") ∧
    resultInv (fileListFiles trivFS "/" ".") ∧
    resultInv (commandExecute (trivProc "/") "echo hi") ∧
    resultInv (dispatch trivialCaps ⟨"readFile(a.txt)", "readFile", ["a.txt"]⟩) :=
  core_results_invariant trivFS "/" "a.txt" "c" "." "echo hi" (trivProc "/")
    trivialCaps ⟨"readFile(a.txt)", "readFile", ["a.txt"]⟩ trivialCapsWF

/-! ## Extraction order and argument parsing (claim C2) -/

/-- A quote character, as in the spec's "surrounding quote characters". -/
def isQuoteChar (c : Char) : Bool :=
  (c = '\'' || c = '"')

/-- Modelled from the spec's words, for comparison with the code: "strip
surrounding quote characters from each resulting token" — remove a
leading quote character and a trailing quote character, leaving interior
quotes in place. -/
def stripSurroundingQuotes (s : String) : String :=
  let l1 :=
    match s.toList with
    | c :: t => if isQuoteChar c then t else s.toList
    | [] => []
  let l2 :=
    match l1.reverse with
    | c :: t => if isQuoteChar c then t.reverse else l1
    | [] => l1
  String.mk l2

/-- Claim C2, counterexample: for the text `readFile(a"b.txt)` the code
produces the argument `ab.txt` — the interior quote is removed — whereas
stripping only surrounding quote characters (the claim's words) would
leave `a"b.txt` unchanged. -/
theorem extractCalls_strips_interior_quotes :
    (extractCalls "readFile(a\"b.txt)").map ToolCall.args = [["ab.txt"]] ∧
    stripSurroundingQuotes (trimJS "a\"b.txt") = "a\"b.txt" ∧
    ("ab.txt" : String) ≠ "a\"b.txt" := by
  decide

/-- Characters that cannot begin any tool-name alternative, so no match
can start at them. -/
def inertChar (c : Char) : Bool :=
  !(c = 'r' || c = 'w' || c = 'e' || c = 'l' || c = 'g' || c = 's' ||
    c = 'c' || c = 'm' || c = 'd' || c = 'a')

/-- Separator characters for the two-call property: inert and not word
characters, so they neither start a match nor spoil a word boundary. -/
def sepChar (c : Char) : Bool :=
  (c = ' ' || c = '.' || c = ',' || c = '!' || c = '?' || c = ';' ||
   c = ':' || c = '\n')

lemma sepChar_cases (c : Char) (h : sepChar c = true) :
    c = ' ' ∨ c = '.' ∨ c = ',' ∨ c = '!' ∨ c = '?' ∨ c = ';' ∨ c = ':' ∨ c = '\n' := by
  simpa [sepChar, or_assoc] using h

lemma sepChar_inert (c : Char) (h : sepChar c = true) : inertChar c = true := by
  rcases sepChar_cases c h with rfl | rfl | rfl | rfl | rfl | rfl | rfl | rfl <;> decide

lemma sepChar_not_word (c : Char) (h : sepChar c = true) : isWordChar c = false := by
  rcases sepChar_cases c h with rfl | rfl | rfl | rfl | rfl | rfl | rfl | rfl <;> decide

/-- The character preceding the rest of the scan after a segment. -/
def lastOpt : Option Char → List Char → Option Char
  | p, [] => p
  | _, c :: cs => lastOpt (some c) cs

/-- A previous character that keeps the word boundary available. -/
def goodPrev : Option Char → Prop
  | none => True
  | some c => isWordChar c = false

lemma goodPrev_boundary (p : Option Char) (h : goodPrev p) : boundaryOk p = true := by
  cases p with
  | none => rfl
  | some c => simp [boundaryOk, goodPrev] at h ⊢; simp [h]

lemma lastOpt_good (seg : List Char) :
    ∀ (p : Option Char), (∀ c ∈ seg, sepChar c = true) → goodPrev p →
      goodPrev (lastOpt p seg) := by
  induction seg with
  | nil => intro p _ hp; exact hp
  | cons c t ih =>
    intro p hs hp
    exact ih (some c) (fun x hx => hs x (by simp [hx]))
      (sepChar_not_word c (hs c (by simp)))

/-- No alternative matches when the head character cannot begin a name. -/
lemma tryName_none_of_head_ne (name : String) (d : Char) (ds : List Char)
    (c : Char) (cs : List Char) (hn : name.toList = d :: ds) (hdc : d ≠ c) :
    tryName name (c :: cs) = none := by
  unfold tryName
  rw [hn]
  simp [stripPrefixChars, hdc]

/-- The scanner finds nothing at an inert character. -/
lemma tryAt_none_of_inert (c : Char) (cs : List Char) (hc : inertChar c = true) :
    tryAt (c :: cs) = none := by
  obtain ⟨h1, h2, h3, h4, h5, h6, h7, h8, h9, h10⟩ :
      ¬c = 'r' ∧ ¬c = 'w' ∧ ¬c = 'e' ∧ ¬c = 'l' ∧ ¬c = 'g' ∧ ¬c = 's' ∧
      ¬c = 'c' ∧ ¬c = 'm' ∧ ¬c = 'd' ∧ ¬c = 'a' := by
    simpa [inertChar, not_or, and_assoc] using hc
  simp only [tryAt, toolNames, firstMatch,
    tryName_none_of_head_ne "readFile" 'r' ['e','a','d','F','i','l','e'] c cs rfl (Ne.symm h1),
    tryName_none_of_head_ne "writeFile" 'w' ['r','i','t','e','F','i','l','e'] c cs rfl (Ne.symm h2),
    tryName_none_of_head_ne "editFile" 'e' ['d','i','t','F','i','l','e'] c cs rfl (Ne.symm h3),
    tryName_none_of_head_ne "executeCommand" 'e' ['x','e','c','u','t','e','C','o','m','m','a','n','d'] c cs rfl (Ne.symm h3),
    tryName_none_of_head_ne "listFiles" 'l' ['i','s','t','F','i','l','e','s'] c cs rfl (Ne.symm h4),
    tryName_none_of_head_ne "listEmails" 'l' ['i','s','t','E','m','a','i','l','s'] c cs rfl (Ne.symm h4),
    tryName_none_of_head_ne "getEmail" 'g' ['e','t','E','m','a','i','l'] c cs rfl (Ne.symm h5),
    tryName_none_of_head_ne "sendEmail" 's' ['e','n','d','E','m','a','i','l'] c cs rfl (Ne.symm h6),
    tryName_none_of_head_ne "createDraft" 'c' ['r','e','a','t','e','D','r','a','f','t'] c cs rfl (Ne.symm h7),
    tryName_none_of_head_ne "searchEmails" 's' ['e','a','r','c','h','E','m','a','i','l','s'] c cs rfl (Ne.symm h6),
    tryName_none_of_head_ne "getUnreadEmails" 'g' ['e','t','U','n','r','e','a','d','E','m','a','i','l','s'] c cs rfl (Ne.symm h5),
    tryName_none_of_head_ne "markAsRead" 'm' ['a','r','k','A','s','R','e','a','d'] c cs rfl (Ne.symm h8),
    tryName_none_of_head_ne "deleteEmail" 'd' ['e','l','e','t','e','E','m','a','i','l'] c cs rfl (Ne.symm h9),
    tryName_none_of_head_ne "getEmailContext" 'g' ['e','t','E','m','a','i','l','C','o','n','t','e','x','t'] c cs rfl (Ne.symm h5),
    tryName_none_of_head_ne "analyzeEmailThread" 'a' ['n','a','l','y','z','e','E','m','a','i','l','T','h','r','e','a','d'] c cs rfl (Ne.symm h10)]

/-- Skipping exactly the remainder of a match advances the scan to the
continuation, tracking the last character skipped. -/
lemma scan_skip (seg : List Char) :
    ∀ (prev : Option Char) (rest : List Char),
      scan seg.length prev (seg ++ rest) = scan 0 (lastOpt prev seg) rest := by
  induction seg with
  | nil => intro prev rest; simp [lastOpt]
  | cons c t ih =>
    intro prev rest
    simpa [scan, lastOpt] using ih (some c) rest

/-- Scanning a segment of inert characters emits nothing. -/
lemma scan_inert (seg : List Char) :
    ∀ (prev : Option Char) (rest : List Char),
      (∀ c ∈ seg, inertChar c = true) →
      scan 0 prev (seg ++ rest) = scan 0 (lastOpt prev seg) rest := by
  induction seg with
  | nil => intro prev rest _; simp [lastOpt]
  | cons c t ih =>
    intro prev rest h
    have hnone := tryAt_none_of_inert c (t ++ rest) (h c (by simp))
    have hstep : scan 0 prev (c :: (t ++ rest)) = scan 0 (some c) (t ++ rest) := by
      by_cases hb : boundaryOk prev = true <;> simp [scan, hb, hnone]
    rw [List.cons_append, hstep]
    simpa [lastOpt] using ih (some c) rest (fun x hx => h x (by simp [hx]))

/-- The characters of `readFile(a.txt)`. -/
def rfCall : List Char :=
  ['r','e','a','d','F','i','l','e','(','a','.','t','x','t',')']

/-- The characters of `writeFile(b.txt, hi)`. -/
def wfCall : List Char :=
  ['w','r','i','t','e','F','i','l','e','(','b','.','t','x','t',',',' ','h','i',')']

/-- The scanner matches `readFile(a.txt)` at its start in one step. -/
lemma tryAt_rf (rest : List Char) :
    tryAt ('r' :: 'e' :: 'a' :: 'd' :: 'F' :: 'i' :: 'l' :: 'e' :: '(' :: 'a' :: '.' :: 't' :: 'x' :: 't' :: ')' ::rest) =
      some (⟨"readFile", [], "a.txt"⟩, 15) := rfl

/-- The scanner matches `writeFile(b.txt, hi)` at its start in one step. -/
lemma tryAt_wf (rest : List Char) :
    tryAt ('w' :: 'r' :: 'i' :: 't' :: 'e' :: 'F' :: 'i' :: 'l' :: 'e' :: '(' :: 'b' :: '.' :: 't' :: 'x' :: 't' :: ',' :: ' ' :: 'h' :: 'i' :: ')' ::rest) =
      some (⟨"writeFile", [], "b.txt, hi"⟩, 20) := rfl

/-- Scanning separator text around and between `readFile(a.txt)` and
`writeFile(b.txt, hi)` yields exactly those two matches, in order. -/
lemma scan_two_calls (pre mid post : List Char)
    (hpre : ∀ c ∈ pre, sepChar c = true) (hmid : ∀ c ∈ mid, sepChar c = true)
    (hpost : ∀ c ∈ post, sepChar c = true) :
    scan 0 none (pre ++ (rfCall ++ (mid ++ (wfCall ++ post)))) =
      [⟨"readFile", [], "a.txt"⟩, ⟨"writeFile", [], "b.txt, hi"⟩] := by
  rw [scan_inert pre none _ (fun c hc => sepChar_inert c (hpre c hc))]
  have hp1 : goodPrev (lastOpt none pre) := lastOpt_good pre none hpre trivial
  have hb1 : boundaryOk (lastOpt none pre) = true := goodPrev_boundary _ hp1
  rw [show rfCall ++ (mid ++ (wfCall ++ post)) =
      'r' ::('e' :: 'a' :: 'd' :: 'F' :: 'i' :: 'l' :: 'e' :: '(' :: 'a' :: '.' :: 't' :: 'x' :: 't' :: ')' ::(mid ++ (wfCall ++ post))) from rfl]
  rw [scan, if_pos hb1, tryAt_rf]
  dsimp only
  rw [show ('e' :: 'a' :: 'd' :: 'F' :: 'i' :: 'l' :: 'e' :: '(' :: 'a' :: '.' :: 't' :: 'x' :: 't' :: ')' ::(mid ++ (wfCall ++ post))) =
      ['e','a','d','F','i','l','e','(','a','.','t','x','t',')'] ++ (mid ++ (wfCall ++ post)) from rfl]
  rw [show (15 - 1 : Nat) =
      (['e','a','d','F','i','l','e','(','a','.','t','x','t',')'] : List Char).length from rfl]
  rw [scan_skip]
  rw [show lastOpt (some 'r') ['e','a','d','F','i','l','e','(','a','.','t','x','t',')'] =
      some ')' from rfl]
  rw [scan_inert mid (some ')') _ (fun c hc => sepChar_inert c (hmid c hc))]
  have hp2 : goodPrev (lastOpt (some ')') mid) :=
    lastOpt_good mid (some ')') hmid (by rfl)
  have hb2 : boundaryOk (lastOpt (some ')') mid) = true := goodPrev_boundary _ hp2
  rw [show wfCall ++ post =
      'w' ::('r' :: 'i' :: 't' :: 'e' :: 'F' :: 'i' :: 'l' :: 'e' :: '(' :: 'b' :: '.' :: 't' :: 'x' :: 't' :: ',' :: ' ' :: 'h' :: 'i' :: ')' ::post) from rfl]
  rw [scan, if_pos hb2, tryAt_wf]
  dsimp only
  rw [show ('r' :: 'i' :: 't' :: 'e' :: 'F' :: 'i' :: 'l' :: 'e' :: '(' :: 'b' :: '.' :: 't' :: 'x' :: 't' :: ',' :: ' ' :: 'h' :: 'i' :: ')' ::post) =
      ['r','i','t','e','F','i','l','e','(','b','.','t','x','t',',',' ','h','i',')'] ++ post from rfl]
  rw [show (20 - 1 : Nat) =
      (['r','i','t','e','F','i','l','e','(','b','.','t','x','t',',',' ','h','i',')'] : List Char).length from rfl]
  rw [scan_skip]
  rw [show lastOpt (some 'w') ['r','i','t','e','F','i','l','e','(','b','.','t','x','t',',',' ','h','i',')'] =
      some ')' from rfl]
  rw [← List.append_nil post]
  rw [scan_inert post (some ')') [] (fun c hc => sepChar_inert c (hpost c hc))]
  rw [show scan 0 (lastOpt (some ')') post) [] = [] from by cases lastOpt (some ')') post <;> rfl]

/-- Claim C2, amended: the extractor returns the two calls in left-to-right
order with comma-split, trimmed, all-quotes-removed arguments, for every
text in which `readFile(a.txt)` is followed by `writeFile(b.txt, hi)`
and the surrounding text consists of separator characters (whitespace and
punctuation that neither begins a tool name nor removes a word
boundary). -/
theorem extractCalls_ordered_pair (pre mid post : String)
    (hpre : ∀ c ∈ pre.toList, sepChar c = true)
    (hmid : ∀ c ∈ mid.toList, sepChar c = true)
    (hpost : ∀ c ∈ post.toList, sepChar c = true) :
    extractCalls (pre ++ "readFile(a.txt)" ++ mid ++ "writeFile(b.txt, hi)" ++ post) =
      [⟨"readFile(a.txt)", "readFile", ["a.txt"]⟩,
       ⟨"writeFile(b.txt, hi)", "writeFile", ["b.txt", "hi"]⟩] := by
  unfold extractCalls extractMatches
  have hdata : (pre ++ "readFile(a.txt)" ++ mid ++ "writeFile(b.txt, hi)" ++ post).toList =
      pre.toList ++ (rfCall ++ (mid.toList ++ (wfCall ++ post.toList))) := by
    show (pre ++ "readFile(a.txt)" ++ mid ++ "writeFile(b.txt, hi)" ++ post).data = _
    rw [String.data_append, String.data_append, String.data_append, String.data_append]
    simp [rfCall, wfCall, String.toList]
  rw [hdata, scan_two_calls pre.toList mid.toList post.toList hpre hmid hpost]
  rfl

/-- Witness for the amended C2 theorem with a single space between the two
calls. -/
theorem extractCalls_ordered_pair_witness :
    extractCalls ("" ++ "readFile(a.txt)" ++ " " ++ "writeFile(b.txt, hi)" ++ "") =
      [⟨"readFile(a.txt)", "readFile", ["a.txt"]⟩,
       ⟨"writeFile(b.txt, hi)", "writeFile", ["b.txt", "hi"]⟩] :=
  extractCalls_ordered_pair "" " " "" (by decide) (by decide) (by decide)
